import Mathlib

/-!
Verification development for the vpc-peering-tool repository.

The Go sources (src/main.go, src/helpers.go, and the refactored draft
containing CreateBiDirectionalSubnetRoutes / CreatePeeringResources) are
shallowly embedded below.  The CDKTF "declare resource" calls are modelled
as an ordered list of `Decl` values: each constructor records exactly the
arguments the Go code passes to the corresponding CDKTF constructor.
Terraform tokens such as `peering.Id()` and `vpcData.CidrBlock()` are
modelled symbolically by `Ref`.  `log.Fatalf` (which prints a diagnostic
and exits with a non-zero status) is modelled as the error branch of
`Except` / the `RunResult.fatal` constructor.

Go map iteration order is not deterministic; functions that iterate a Go
map (`ConvertToPeerConfigs` ranges over `cfg.PeeringMatrix`) therefore
take the iteration sequence of the map's entries as an explicit argument.
-/

namespace VpcPeering

/-- YAMLPeer as referenced by src/helpers.go and src/main_test.go:
fields vpc_id, region, role_arn, cidr_block, dns_resolution,
has_additional_routes. -/
structure YAMLPeer where
  VpcId : String
  Region : String
  RoleArn : String
  CidrBlock : String
  DnsResolution : Bool
  HasAdditionalRoutes : Bool
deriving DecidableEq, Repr

/-- PeerConfig as referenced by src/helpers.go `ConvertToPeerConfigs` and
src/main.go `NewMyStack`. -/
structure PeerConfig where
  SourceVpcId : String
  SourceRegion : String
  SourceRoleArn : String
  PeerVpcId : String
  PeerRegion : String
  PeerRoleArn : String
  PeerVpcCidr : String
  Name : String
  EnableDnsResolution : Bool
  HasExtraPeerRouteTables : Bool
deriving DecidableEq, Repr

/-- Model of Go's strings.Split for a one-character separator, over the
character list of the string: the list of maximal chunks between
occurrences of `sep`.  strings.Split("", sep) = [""], matching the base
case. -/
def stringsSplit (sep : Char) : List Char → List (List Char)
  | [] => [[]]
  | c :: rest =>
    let r := stringsSplit sep rest
    if c = sep then [] :: r
    else
      match r with
      | [] => [[c]]
      | h :: t => (c :: h) :: t

/-- GetAccountIDFromRoleArn, src/helpers.go lines 27-33: split the ARN on
":"; if at least 5 segments exist return segment index 4, else "". -/
def GetAccountIDFromRoleArn (roleArn : String) : String :=
  let parts := stringsSplit ':' roleArn.data
  if 5 ≤ parts.length then String.mk (parts.getD 4 []) else ""

instance {ε α : Type} [DecidableEq ε] [DecidableEq α] : DecidableEq (Except ε α)
  | .error e, .error f =>
    if h : e = f then isTrue (by rw [h]) else isFalse (by intro c; cases c; exact h rfl)
  | .error _, .ok _ => isFalse (by intro h; cases h)
  | .ok _, .error _ => isFalse (by intro h; cases h)
  | .ok a, .ok b =>
    if h : a = b then isTrue (by rw [h]) else isFalse (by intro c; cases c; exact h rfl)

/-- Body of the `for _, target := range targets` loop of ConvertToPeerConfigs
(src/helpers.go lines 76-87): the PeerConfig appended for one target.
`EnableDnsResolution` and `HasExtraPeerRouteTables` are copied from the
SOURCE peer's entry (helpers.go lines 85-86). -/
def mkPeerConfig (sourcePeer peerPeer : YAMLPeer) (target : String) : PeerConfig :=
  { SourceVpcId := sourcePeer.VpcId
    SourceRegion := sourcePeer.Region
    SourceRoleArn := sourcePeer.RoleArn
    PeerVpcId := peerPeer.VpcId
    PeerRegion := peerPeer.Region
    PeerRoleArn := peerPeer.RoleArn
    PeerVpcCidr := peerPeer.CidrBlock
    Name := target
    EnableDnsResolution := sourcePeer.DnsResolution
    HasExtraPeerRouteTables := sourcePeer.HasAdditionalRoutes }

/-- Inner loop of ConvertToPeerConfigs over one source's target list
(src/helpers.go lines 70-88).  A target absent from cfg.Peers triggers
`log.Fatalf("missing peer config for %q", target)`, modelled as `.error`. -/
def expandTargets (peers : List (String × YAMLPeer)) (sourcePeer : YAMLPeer) :
    List String → Except String (List PeerConfig)
  | [] => .ok []
  | t :: ts =>
    match peers.lookup t with
    | none => .error ("missing peer config for \"" ++ t ++ "\"")
    | some peerPeer => do
      let rest ← expandTargets peers sourcePeer ts
      .ok (mkPeerConfig sourcePeer peerPeer t :: rest)

/-- ConvertToPeerConfigs, src/helpers.go lines 55-93.  `matrixIter` is the
iteration sequence of the Go map `cfg.PeeringMatrix` (Go map iteration
order is unspecified, so it is an explicit parameter here).  An entry is
skipped when a non-empty sourceFilter differs from its source name
(line 60); a source absent from cfg.Peers is fatal (line 67). -/
def ConvertToPeerConfigs (peers : List (String × YAMLPeer))
    (matrixIter : List (String × List String)) (sourceFilter : String) :
    Except String (List PeerConfig) :=
  match matrixIter with
  | [] => .ok []
  | (source, targets) :: rest =>
    if sourceFilter != "" && source != sourceFilter then
      ConvertToPeerConfigs peers rest sourceFilter
    else
      match peers.lookup source with
      | none => .error ("missing source peer config for \"" ++ source ++ "\"")
      | some sourcePeer => do
        let here ← expandTargets peers sourcePeer targets
        let there ← ConvertToPeerConfigs peers rest sourceFilter
        .ok (here ++ there)

/-- Credential context a resource is evaluated under: the aliased AWS
provider created for edge index `i` from the source's or the peer's
region and role ARN (src/main.go lines 49-54). -/
inductive Prov where
  | source (i : Nat)
  | peer (i : Nat)
deriving DecidableEq, Repr

/-- Symbolic Terraform token: `r.Id()` or `vpcData.CidrBlock()` of the
named resource/data source. -/
inductive Ref where
  | idOf (resourceName : String)
  | cidrOf (dataSourceName : String)
deriving DecidableEq, Repr

/-- One CDKTF declaration made by the builder, with exactly the arguments
the Go code passes that matter to the spec: logical name, credential
context, dependency set (by resource name), and resource-specific
attributes. -/
inductive Decl where
  | awsProvider (name aliasName region roleArn : String)
  | vpcData (name vpcId : String) (prov : Prov)
  | mainRouteTable (name vpcId : String) (prov : Prov)
  | peering (name vpcId peerVpcId peerOwnerId : String) (prov : Prov)
      (autoAccept : Bool) (peerRegionAttr : Option String)
  | accepter (name : String) (prov : Prov) (dependsOn : List String)
      (autoAcceptOverride : Bool)
  | options (name : String) (prov : Prov) (dependsOn : List String)
      (requesterAllowRemoteDns : Bool)
  | route (name : String) (routeTableId destCidr peeringId : Ref) (prov : Prov)
      (dependsOn : List String)
  | subnets (name vpcId tagFilterName tagFilterValue : String) (prov : Prov)
  | subnetRtLookup (name subnetsName : String) (prov : Prov)
  | subnetRouteFanout (name subnetsName : String) (destCidr peeringId : Ref)
      (prov : Prov) (dependsOn : List String)
deriving DecidableEq, Repr

/-- CreateRoute (refactored draft, used by src/main.go lines 155-174):
one aws_route with the given table, destination CIDR, peering id,
provider and dependencies. -/
def CreateRoute (name : String) (routeTableID destCidr peeringID : Ref)
    (prov : Prov) (dependsOn : List String) : Decl :=
  Decl.route name routeTableID destCidr peeringID prov dependsOn

/-- CreateSubnetRoutes (refactored draft): a per-subnet route-table lookup
and a per-subnet route, both iterated with a TerraformIterator (ForEach)
over the discovered subnet list. -/
def CreateSubnetRoutes (namePfx subnetsName : String) (prov : Prov)
    (destCidr peeringID : Ref) (dependsOn : List String) : List Decl :=
  [ Decl.subnetRtLookup (namePfx ++ "RouteTable") subnetsName prov
  , Decl.subnetRouteFanout (namePfx ++ "Route") subnetsName destCidr peeringID prov dependsOn ]

/-- CreateFilteredSubnetRoutes (refactored draft, called from src/main.go
lines 179-206): declare the subnet discovery data source filtered by
vpc-id and by the given tag filter, then fan routes out over it.  The Go
guard `subnets.Ids() != nil` always holds at synthesis time (`Ids()` is a
token), so the fan-out is always declared.  `routeTableResourceName` is
accepted but unused, exactly as in the Go code. -/
def CreateFilteredSubnetRoutes (namePfx subnetResourceName vpcID : String)
    (prov : Prov) (tagFilterName tagFilterValue : String)
    (routeTableResourceName : String) (destCidr peeringID : Ref)
    (dependsOn : List String) : List Decl :=
  Decl.subnets subnetResourceName vpcID tagFilterName tagFilterValue prov
    :: CreateSubnetRoutes namePfx subnetResourceName prov destCidr peeringID dependsOn

/-- Instance of a fanned-out subnet route once the subnet discovery has
returned a concrete list of keys (apply-time semantics of ForEach). -/
structure RouteInstance where
  key : String
  destCidr : Ref
  prov : Prov
deriving DecidableEq, Repr

/-- Apply-time instantiation of a declaration against the list of
discovered subnet keys: a ForEach fan-out yields one route per key and —
in particular — zero routes (not an error) when nothing was discovered;
every other declaration yields no per-subnet routes. -/
def instantiateFanout (discovered : List String) : Decl → List RouteInstance
  | Decl.subnetRouteFanout _ _ dest _ prov _ =>
    discovered.map (fun k => ⟨k, dest, prov⟩)
  | _ => []

/-- Region defaulting, src/main.go lines 39-46: an empty region becomes
"us-west-2". -/
def resolveRegion (r : String) : String :=
  if r = "" then "us-west-2" else r

/-- Body of the per-edge loop of NewMyStack, src/main.go lines 37-207,
as the ordered list of declarations it makes for edge index `i`.
Every name, provider choice, flag and dependency is transcribed from the
Go code; in particular the reverse main route (lines 166-174) passes
`jsii.String(*peering.Id())` as the destination CIDR and `sourceProvider`
as the provider. -/
def buildEdge (i : Nat) (peer : PeerConfig) : List Decl :=
  let sourceRegion := resolveRegion peer.SourceRegion
  let peerRegion := resolveRegion peer.PeerRegion
  let si := toString i
  let sourceProviderName := "SourceAWS" ++ si
  let peerProviderName := "PeerAWS" ++ si
  let sourceVpcName := "SourceVpcData" ++ si
  let peerVpcName := "PeerVpcData" ++ si
  let sourceMainRtName := "SourceMainRouteTable" ++ si
  let peerMainRtName := "PeerMainRouteTable" ++ si
  let peerOwnerId := GetAccountIDFromRoleArn peer.PeerRoleArn
  let name := if peer.Name = "" then peer.PeerVpcId else peer.Name
  let autoAccept := sourceRegion == peerRegion
  let peeringName := "VpcPeering" ++ si
  let accepterName := "VpcPeeringAccepter" ++ si
  let dependsOn := if autoAccept then [peeringName] else [peeringName, accepterName]
  [ Decl.awsProvider sourceProviderName ("source" ++ si) sourceRegion peer.SourceRoleArn
  , Decl.awsProvider peerProviderName ("peer" ++ si) peerRegion peer.PeerRoleArn
  , Decl.vpcData sourceVpcName peer.SourceVpcId (Prov.source i)
  , Decl.vpcData peerVpcName peer.PeerVpcId (Prov.peer i)
  , Decl.mainRouteTable sourceMainRtName peer.SourceVpcId (Prov.source i)
  , Decl.mainRouteTable peerMainRtName peer.PeerVpcId (Prov.peer i)
  , Decl.peering peeringName peer.SourceVpcId peer.PeerVpcId peerOwnerId
      (Prov.source i) autoAccept
      (if sourceRegion ≠ peerRegion then some peerRegion else none) ]
  ++ (if autoAccept then []
      else [Decl.accepter accepterName (Prov.peer i) [peeringName] true])
  ++ [ Decl.options ("VpcPeeringOptions" ++ si) (Prov.source i) dependsOn
         peer.EnableDnsResolution
     , CreateRoute ("SourceToPeerMainRoute" ++ si) (Ref.idOf sourceMainRtName)
         (Ref.cidrOf peerVpcName) (Ref.idOf peeringName) (Prov.source i) dependsOn
     , CreateRoute ("PeerToPeerMainRoute" ++ si) (Ref.idOf peerMainRtName)
         (Ref.idOf peeringName) (Ref.idOf peeringName) (Prov.source i) dependsOn ]
  ++ (if peer.HasExtraPeerRouteTables then
        CreateFilteredSubnetRoutes ("SourceSubnetToPeerRoute_" ++ name ++ "_eachkey_" ++ si)
          ("SourceSubnets" ++ si) peer.SourceVpcId (Prov.source i)
          "tag:cdktf-source-main-rt" "" ("SourceSubnetRouteTable" ++ si)
          (Ref.cidrOf peerVpcName) (Ref.idOf peeringName) dependsOn
        ++ CreateFilteredSubnetRoutes ("PeerSubnetToSourceRoute_" ++ name ++ "_eachkey_" ++ si)
          ("PeerSubnets" ++ si) peer.PeerVpcId (Prov.peer i)
          "tag:cdktf-peer-main-rt" "" ("PeerSubnetRouteTable" ++ si)
          (Ref.cidrOf sourceVpcName) (Ref.idOf peeringName) dependsOn
      else [])

/-- NewMyStack, src/main.go lines 24-212: declarations of all edges, in
edge order, with positional indices. -/
def NewMyStack (peers : List PeerConfig) : List Decl :=
  peers.enum.flatMap (fun p => buildEdge p.1 p.2)

/-- CreateBiDirectionalSubnetRoutes from the refactored draft
(src/unnamed/part_003 lines 1155-1217): the two main routes and the
conditional subnet routes for one edge.  The core resource names are the
ones SetupPeerCoreResources gives them, and `dependsOn` is the dependency
list built by CreatePeeringResources.  Unlike src/main.go, the reverse
main route routes the SOURCE VPC's CIDR block under the PEER's provider. -/
def CreateBiDirectionalSubnetRoutes (i : Nat) (peer : PeerConfig)
    (name : String) (dependsOn : List String) : List Decl :=
  let si := toString i
  [ CreateRoute ("SourceToPeerMainRoute" ++ si)
      (Ref.idOf ("SourceMainRouteTable" ++ si)) (Ref.cidrOf ("PeerVpcData" ++ si))
      (Ref.idOf ("VpcPeering" ++ si)) (Prov.source i) dependsOn
  , CreateRoute ("PeerToPeerMainRoute" ++ si)
      (Ref.idOf ("PeerMainRouteTable" ++ si)) (Ref.cidrOf ("SourceVpcData" ++ si))
      (Ref.idOf ("VpcPeering" ++ si)) (Prov.peer i) dependsOn ]
  ++ (if peer.HasExtraPeerRouteTables then
        CreateFilteredSubnetRoutes ("SourceSubnetToPeerRoute_" ++ name ++ "_eachkey_" ++ si)
          ("SourceSubnets" ++ si) peer.SourceVpcId (Prov.source i)
          "tag:cdktf-source-main-rt" "" ("SourceSubnetRouteTable" ++ si)
          (Ref.cidrOf ("PeerVpcData" ++ si)) (Ref.idOf ("VpcPeering" ++ si)) dependsOn
        ++ CreateFilteredSubnetRoutes ("PeerSubnetToSourceRoute_" ++ name ++ "_eachkey_" ++ si)
          ("PeerSubnets" ++ si) peer.PeerVpcId (Prov.peer i)
          "tag:cdktf-peer-main-rt" "" ("PeerSubnetRouteTable" ++ si)
          (Ref.cidrOf ("SourceVpcData" ++ si)) (Ref.idOf ("VpcPeering" ++ si)) dependsOn
      else [])

/-- Selection-input defaulting in main, src/main.go lines 225-228: an
unset or empty CDKTF_SOURCE becomes the fixed name "default-source". -/
def selectionFilter (env : String) : String :=
  if env = "" then "default-source" else env

/-- Outcome of a process run: either stack synthesis proceeds with the
expanded edges, or `log.Fatalf` terminated the process with a non-zero
exit status and the given diagnostic message. -/
inductive RunResult where
  | synthOk (peers : List PeerConfig)
  | fatal (msg : String)
deriving DecidableEq, Repr

/-- main, src/main.go lines 218-239 (configuration already parsed, map
iteration order explicit): default the selection input, expand, and fail
fatally when zero edges matched (lines 232-234). -/
def runMain (peers : List (String × YAMLPeer))
    (matrixIter : List (String × List String)) (env : String) : RunResult :=
  let sourceID := selectionFilter env
  match ConvertToPeerConfigs peers matrixIter sourceID with
  | .error e => .fatal e
  | .ok l =>
    if l.isEmpty then .fatal ("no peers matched for source: " ++ sourceID)
    else .synthOk l

/-- Auto-accept attribute of a peering-link declaration. -/
def peeringAutoAccept : Decl → Option Bool
  | Decl.peering _ _ _ _ _ aa _ => some aa
  | _ => none

/-- Peer-region attribute of a peering-link declaration (none = omitted). -/
def peeringRegionAttr : Decl → Option (Option String)
  | Decl.peering _ _ _ _ _ _ pr => some pr
  | _ => none

/-- Provider, dependency set and forced auto-accept flag of an acceptance
declaration. -/
def accepterInfo : Decl → Option (Prov × List String × Bool)
  | Decl.accepter _ p deps aa => some (p, deps, aa)
  | _ => none

/-- Provider, dependency set and requester allow-remote-DNS flag of an
options declaration. -/
def optionsInfo : Decl → Option (Prov × List String × Bool)
  | Decl.options _ p deps dns => some (p, deps, dns)
  | _ => none

/-- Name, route table, destination, peering id, provider and dependency
set of a (main, non-fan-out) route declaration. -/
def mainRouteInfo : Decl → Option (String × Ref × Ref × Ref × Prov × List String)
  | Decl.route n rt dest pid p deps => some (n, rt, dest, pid, p, deps)
  | _ => none

/-- Tag-filter name of a subnet-discovery declaration. -/
def subnetsTagFilter : Decl → Option String
  | Decl.subnets _ _ tagName _ _ => some tagName
  | _ => none

/-- Whether a declaration belongs to the optional subnet-route machinery. -/
def isSubnetDecl : Decl → Bool
  | Decl.subnets _ _ _ _ _ => true
  | Decl.subnetRtLookup _ _ _ => true
  | Decl.subnetRouteFanout _ _ _ _ _ _ => true
  | _ => false

/-- Source peer of the self-test configuration of src/main_test.go
(TestConvertToPeerConfigs_Positive): dns_resolution true,
has_additional_routes false. -/
def testSourcePeer : YAMLPeer :=
  { VpcId := "vpc-111", Region := "us-west-2"
    RoleArn := "arn:aws:iam::111111111111:role/SourceRole"
    CidrBlock := "", DnsResolution := true, HasAdditionalRoutes := false }

/-- Target peer of the same test: dns_resolution false,
has_additional_routes true. -/
def testTargetPeer : YAMLPeer :=
  { VpcId := "vpc-222", Region := "us-east-1"
    RoleArn := "arn:aws:iam::222222222222:role/TargetRole"
    CidrBlock := "", DnsResolution := false, HasAdditionalRoutes := true }

/-- Peer map of the src/main_test.go configuration. -/
def testPeersMap : List (String × YAMLPeer) :=
  [("source-peer", testSourcePeer), ("target-peer", testTargetPeer)]

/-- Adjacency of the src/main_test.go configuration. -/
def testMatrix : List (String × List String) :=
  [("source-peer", ["target-peer"])]

/-- The single edge ConvertToPeerConfigs produces for the test
configuration. -/
def c3edge : PeerConfig := mkPeerConfig testSourcePeer testTargetPeer "target-peer"

/-- C1: the claim says the peer-side main route has the source's address
block as destination and runs under the peer's credential context.  The
builder in src/main.go does declare exactly two main routes per edge, one
per main route table, but its PeerToPeerMainRoute passes the peering
link's id token as the destination CIDR and the SOURCE provider; the
refactored draft's CreateBiDirectionalSubnetRoutes does what the claim
says (source CIDR, peer provider).  This theorem exhibits both. -/
theorem main_routes_of_buildEdge :
    (∀ i p, (buildEdge i p).filterMap mainRouteInfo
      = [ ("SourceToPeerMainRoute" ++ toString i,
           Ref.idOf ("SourceMainRouteTable" ++ toString i),
           Ref.cidrOf ("PeerVpcData" ++ toString i),
           Ref.idOf ("VpcPeering" ++ toString i),
           Prov.source i,
           if resolveRegion p.SourceRegion == resolveRegion p.PeerRegion
           then ["VpcPeering" ++ toString i]
           else ["VpcPeering" ++ toString i, "VpcPeeringAccepter" ++ toString i]),
          ("PeerToPeerMainRoute" ++ toString i,
           Ref.idOf ("PeerMainRouteTable" ++ toString i),
           Ref.idOf ("VpcPeering" ++ toString i),
           Ref.idOf ("VpcPeering" ++ toString i),
           Prov.source i,
           if resolveRegion p.SourceRegion == resolveRegion p.PeerRegion
           then ["VpcPeering" ++ toString i]
           else ["VpcPeering" ++ toString i, "VpcPeeringAccepter" ++ toString i]) ])
    ∧ (∀ i p name deps,
        (CreateBiDirectionalSubnetRoutes i p name deps).filterMap mainRouteInfo
      = [ ("SourceToPeerMainRoute" ++ toString i,
           Ref.idOf ("SourceMainRouteTable" ++ toString i),
           Ref.cidrOf ("PeerVpcData" ++ toString i),
           Ref.idOf ("VpcPeering" ++ toString i),
           Prov.source i, deps),
          ("PeerToPeerMainRoute" ++ toString i,
           Ref.idOf ("PeerMainRouteTable" ++ toString i),
           Ref.cidrOf ("SourceVpcData" ++ toString i),
           Ref.idOf ("VpcPeering" ++ toString i),
           Prov.peer i, deps) ]) := by
  constructor
  · intro i p
    by_cases h : resolveRegion p.SourceRegion = resolveRegion p.PeerRegion <;>
    by_cases hx : p.HasExtraPeerRouteTables <;>
    simp [buildEdge, mainRouteInfo, CreateRoute, CreateFilteredSubnetRoutes,
      CreateSubnetRoutes, h, hx]
  · intro i p name deps
    by_cases hx : p.HasExtraPeerRouteTables <;>
    simp [CreateBiDirectionalSubnetRoutes, mainRouteInfo, CreateRoute,
      CreateFilteredSubnetRoutes, CreateSubnetRoutes, hx]

/-- C4: the peering link's auto-accept attribute is true exactly when the
two regions resolve (after defaulting empty to "us-west-2") to the same
region; exactly one peering link is declared per edge. -/
theorem auto_accept_iff_same_region (i : Nat) (p : PeerConfig) :
    ((buildEdge i p).filterMap peeringAutoAccept
      = [resolveRegion p.SourceRegion == resolveRegion p.PeerRegion])
    ∧ (((resolveRegion p.SourceRegion == resolveRegion p.PeerRegion) = true)
        ↔ resolveRegion p.SourceRegion = resolveRegion p.PeerRegion) := by
  constructor
  · by_cases h : resolveRegion p.SourceRegion = resolveRegion p.PeerRegion <;>
    by_cases hx : p.HasExtraPeerRouteTables <;>
    simp [buildEdge, peeringAutoAccept, CreateRoute, CreateFilteredSubnetRoutes,
      CreateSubnetRoutes, h, hx]
  · exact beq_iff_eq

/-- C5: an acceptance resource is declared iff auto-accept is false; it
runs under the peer's provider, depends on the peering link, and forces
its own auto_accept true; the single options resource (source provider)
depends on the link and, exactly when the accepter exists, on it too. -/
theorem accepter_iff_cross_region (i : Nat) (p : PeerConfig) :
    ((buildEdge i p).filterMap accepterInfo
      = (if resolveRegion p.SourceRegion == resolveRegion p.PeerRegion then []
         else [(Prov.peer i, ["VpcPeering" ++ toString i], true)]))
    ∧ ((buildEdge i p).filterMap optionsInfo
      = [(Prov.source i,
          (if resolveRegion p.SourceRegion == resolveRegion p.PeerRegion
           then ["VpcPeering" ++ toString i]
           else ["VpcPeering" ++ toString i, "VpcPeeringAccepter" ++ toString i]),
          p.EnableDnsResolution)]) := by
  constructor <;>
  · by_cases h : resolveRegion p.SourceRegion = resolveRegion p.PeerRegion <;>
    by_cases hx : p.HasExtraPeerRouteTables <;>
    simp [buildEdge, accepterInfo, optionsInfo, CreateRoute,
      CreateFilteredSubnetRoutes, CreateSubnetRoutes, h, hx]

/-- C10: the peering link's peer-region attribute is set to the resolved
peer region exactly when the resolved regions differ, and omitted for
same-region edges. -/
theorem peer_region_attr_iff_cross_region (i : Nat) (p : PeerConfig) :
    (buildEdge i p).filterMap peeringRegionAttr
      = [if resolveRegion p.SourceRegion = resolveRegion p.PeerRegion then none
         else some (resolveRegion p.PeerRegion)] := by
  by_cases h : resolveRegion p.SourceRegion = resolveRegion p.PeerRegion <;>
  by_cases hx : p.HasExtraPeerRouteTables <;>
  simp [buildEdge, peeringRegionAttr, CreateRoute, CreateFilteredSubnetRoutes,
    CreateSubnetRoutes, h, hx]

/-- C6: subnet-route machinery is declared exactly when the edge's
HasExtraPeerRouteTables flag is set; the source-side discovery uses the
fixed tag filter "tag:cdktf-source-main-rt" and the peer side the
distinct "tag:cdktf-peer-main-rt"; instantiating every fan-out against
zero discovered tables yields zero routes (a no-op, not an error). -/
theorem subnet_routes_iff_flag (i : Nat) (p : PeerConfig) :
    (((buildEdge i p).filter isSubnetDecl).isEmpty = !p.HasExtraPeerRouteTables)
    ∧ ((buildEdge i p).filterMap subnetsTagFilter
        = (if p.HasExtraPeerRouteTables
           then ["tag:cdktf-source-main-rt", "tag:cdktf-peer-main-rt"] else []))
    ∧ ("tag:cdktf-source-main-rt" ≠ "tag:cdktf-peer-main-rt")
    ∧ (((buildEdge i p).map (instantiateFanout [])).flatten = []) := by
  refine ⟨?_, ?_, by decide, ?_⟩ <;>
  · by_cases h : resolveRegion p.SourceRegion = resolveRegion p.PeerRegion <;>
    by_cases hx : p.HasExtraPeerRouteTables <;>
    simp [buildEdge, isSubnetDecl, subnetsTagFilter, instantiateFanout, CreateRoute,
      CreateFilteredSubnetRoutes, CreateSubnetRoutes, h, hx]

/-- C3: exactly one options resource is declared per edge, under the
source's provider, and its requester allow-remote-DNS flag is the edge's
EnableDnsResolution field — which ConvertToPeerConfigs copies from the
SOURCE peer's dns_resolution, not the target's.  On the configuration of
src/main_test.go (source dns true, target dns false) the flag comes out
true while the target's configured flag is false, which is what the
repository's own test rejects. -/
theorem options_flag_copied_from_source_peer :
    (∀ i p, (buildEdge i p).filterMap optionsInfo
      = [(Prov.source i,
          (if resolveRegion p.SourceRegion == resolveRegion p.PeerRegion
           then ["VpcPeering" ++ toString i]
           else ["VpcPeering" ++ toString i, "VpcPeeringAccepter" ++ toString i]),
          p.EnableDnsResolution)])
    ∧ (∀ sp pp t, (mkPeerConfig sp pp t).EnableDnsResolution = sp.DnsResolution)
    ∧ (ConvertToPeerConfigs testPeersMap testMatrix "source-peer"
        = Except.ok [c3edge])
    ∧ c3edge.EnableDnsResolution = true
    ∧ testTargetPeer.DnsResolution = false := by
  refine ⟨?_, fun _ _ _ => rfl, by decide, by decide, by decide⟩
  intro i p
  by_cases h : resolveRegion p.SourceRegion = resolveRegion p.PeerRegion <;>
  by_cases hx : p.HasExtraPeerRouteTables <;>
  simp [buildEdge, optionsInfo, CreateRoute, CreateFilteredSubnetRoutes,
    CreateSubnetRoutes, h, hx]

/-- Minimal peer entry used by the determinism and filtering scenarios. -/
def plainPeer (vpc : String) : YAMLPeer :=
  { VpcId := vpc, Region := "us-west-2", RoleArn := ""
    CidrBlock := "", DnsResolution := false, HasAdditionalRoutes := false }

/-- Peer map with four zones a, b, c, d. -/
def c2peers : List (String × YAMLPeer) :=
  [ ("a", plainPeer "vpc-a"), ("b", plainPeer "vpc-b")
  , ("c", plainPeer "vpc-c"), ("d", plainPeer "vpc-d") ]

/-- One iteration sequence of the adjacency map with sources a and c. -/
def c2iterA : List (String × List String) := [("a", ["b"]), ("c", ["d"])]

/-- The other iteration sequence of the same adjacency map. -/
def c2iterB : List (String × List String) := [("c", ["d"]), ("a", ["b"])]

/-- Edges produced when the map happens to iterate a before c. -/
def c2edgesA : List PeerConfig :=
  [ mkPeerConfig (plainPeer "vpc-a") (plainPeer "vpc-b") "b"
  , mkPeerConfig (plainPeer "vpc-c") (plainPeer "vpc-d") "d" ]

/-- Edges produced when the map happens to iterate c before a. -/
def c2edgesB : List PeerConfig :=
  [ mkPeerConfig (plainPeer "vpc-c") (plainPeer "vpc-d") "d"
  , mkPeerConfig (plainPeer "vpc-a") (plainPeer "vpc-b") "b" ]

/-- C2: ConvertToPeerConfigs ranges over the Go map cfg.PeeringMatrix,
whose iteration order is unspecified, and two valid iteration sequences
of the same two-source adjacency (a permutation of one another) yield
different edge lists — and hence different positionally-named resource
declarations — so expansion is not a deterministic function of the
configuration alone. -/
theorem edge_order_depends_on_map_iteration :
    c2iterA.Perm c2iterB
    ∧ ConvertToPeerConfigs c2peers c2iterA "" = Except.ok c2edgesA
    ∧ ConvertToPeerConfigs c2peers c2iterB "" = Except.ok c2edgesB
    ∧ c2edgesA ≠ c2edgesB
    ∧ NewMyStack c2edgesA ≠ NewMyStack c2edgesB := by
  exact ⟨by decide, by decide, by decide, by decide, by decide⟩

/-- Peer map with zones a and b for the selection-filter scenario;
neither is named "default-source". -/
def c7peers : List (String × YAMLPeer) :=
  [("a", plainPeer "vpc-a"), ("b", plainPeer "vpc-b")]

/-- Adjacency expanding a → b. -/
def c7matrix : List (String × List String) := [("a", ["b"])]

/-- C7 counterexample: with the selection input unset (empty), main
substitutes the filter "default-source", so the sole source "a" is NOT
expanded and the process dies with zero edges — although unfiltered
expansion of the same configuration yields an edge.  The claim's
"unset/empty means expand all sources" is therefore false of the code. -/
theorem empty_selection_does_not_expand_all :
    runMain c7peers c7matrix ""
      = RunResult.fatal "no peers matched for source: default-source"
    ∧ ConvertToPeerConfigs c7peers c7matrix ""
      = Except.ok [mkPeerConfig (plainPeer "vpc-a") (plainPeer "vpc-b") "b"] := by
  exact ⟨by decide, by decide⟩

/-- C7 (amended): the entrypoint turns an unset/empty selection input
into the fixed filter "default-source" (so the filter reaching the
expander is never empty), and for any non-empty filter the expander
processes exactly the adjacency entries whose source name equals the
filter, as if all other entries were absent. -/
theorem selection_defaults_and_exact_match (peers : List (String × YAMLPeer))
    (matrix : List (String × List String)) (env f : String) (hf : f ≠ "") :
    selectionFilter env = (if env = "" then "default-source" else env)
    ∧ selectionFilter env ≠ ""
    ∧ ConvertToPeerConfigs peers matrix f
        = ConvertToPeerConfigs peers (matrix.filter (fun e => e.1 == f)) "" := by
  refine ⟨rfl, ?_, ?_⟩
  · by_cases h : env = "" <;> simp [selectionFilter, h]
  · induction matrix with
    | nil => rfl
    | cons e rest ih =>
      obtain ⟨s, ts⟩ := e
      by_cases hs : s = f
      · simp [ConvertToPeerConfigs, List.filter, hs, ih]
      · have hb : (s == f) = false := by simp [hs]
        simp [ConvertToPeerConfigs, List.filter, hs, ih, hf, hb]

/-- Witness applying the amended C7 theorem at the concrete scenario. -/
theorem selection_defaults_and_exact_match_witness :
    ("a" : String) ≠ ""
    ∧ (selectionFilter "" = (if ("" : String) = "" then "default-source" else "")
       ∧ selectionFilter "" ≠ ""
       ∧ ConvertToPeerConfigs c7peers c7matrix "a"
           = ConvertToPeerConfigs c7peers (c7matrix.filter (fun e => e.1 == "a")) "") :=
  ⟨by decide, selection_defaults_and_exact_match c7peers c7matrix "" "a" (by decide)⟩

/-- C8: the account-id extractor returns the fifth colon-delimited
segment whenever the reference has at least five segments and the empty
string for every shorter input; in particular the spec's three sample
inputs behave as stated. -/
theorem account_id_extraction (s : String) :
    (5 ≤ (stringsSplit ':' s.data).length →
      GetAccountIDFromRoleArn s = String.mk ((stringsSplit ':' s.data).getD 4 []))
    ∧ ((stringsSplit ':' s.data).length < 5 → GetAccountIDFromRoleArn s = "")
    ∧ GetAccountIDFromRoleArn "arn:aws:iam::123456789012:role/X" = "123456789012"
    ∧ GetAccountIDFromRoleArn "" = ""
    ∧ GetAccountIDFromRoleArn "arn:aws:iam:123456789012" = "" := by
  refine ⟨fun h => ?_, fun h => ?_, by decide, by decide, by decide⟩
  · simp [GetAccountIDFromRoleArn, h]
  · simp [GetAccountIDFromRoleArn, not_le.mpr h]

/-- Witness applying the C8 theorem at the well-formed sample ARN. -/
theorem account_id_extraction_witness :
    5 ≤ (stringsSplit ':' "arn:aws:iam::123456789012:role/X".data).length
    ∧ GetAccountIDFromRoleArn "arn:aws:iam::123456789012:role/X"
        = String.mk ((stringsSplit ':' "arn:aws:iam::123456789012:role/X".data).getD 4 []) :=
  ⟨by decide, (account_id_extraction "arn:aws:iam::123456789012:role/X").1 (by decide)⟩

/-- Helper for the error-handling claim: every fatal error raised while
expanding a target list is the missing-peer diagnostic, and the named
peer really is absent from the peer map. -/
theorem expandTargets_error_names_missing (pm : List (String × YAMLPeer)) (sp : YAMLPeer) :
    ∀ ts e, expandTargets pm sp ts = .error e →
      ∃ missing, pm.lookup missing = none
        ∧ e = "missing peer config for \"" ++ missing ++ "\"" := by
  intro ts
  induction ts with
  | nil => intro e h; cases h
  | cons t ts ih =>
    intro e h
    unfold expandTargets at h
    cases hl : pm.lookup t with
    | none =>
      rw [hl] at h
      exact ⟨t, hl, by cases h; rfl⟩
    | some pp =>
      rw [hl] at h
      cases hr : expandTargets pm sp ts with
      | error e2 =>
        rw [hr] at h
        simp only [Bind.bind, Monad.toBind, Except.instMonad, Except.bind] at h
        injection h with h2
        subst h2
        exact ih _ hr
      | ok l =>
        rw [hr] at h
        simp only [Bind.bind, Monad.toBind, Except.instMonad, Except.bind] at h
        cases h

/-- Helper: when a target list expands successfully, every target was
present in the peer map. -/
theorem expandTargets_ok_all_present (pm : List (String × YAMLPeer)) (sp : YAMLPeer) :
    ∀ ts l, expandTargets pm sp ts = .ok l → ∀ t, t ∈ ts → (pm.lookup t).isSome := by
  intro ts
  induction ts with
  | nil => intro l _ t ht; cases ht
  | cons t0 ts ih =>
    intro l h t ht
    unfold expandTargets at h
    cases hl : pm.lookup t0 with
    | none => rw [hl] at h; cases h
    | some pp =>
      rw [hl] at h
      cases hr : expandTargets pm sp ts with
      | error e2 =>
        rw [hr] at h
        simp only [Bind.bind, Monad.toBind, Except.instMonad, Except.bind] at h
        cases h
      | ok l2 =>
        rcases List.mem_cons.mp ht with h1 | h2
        · subst h1; simp [hl]
        · exact ih l2 hr t h2



/-- Helper: every fatal error of ConvertToPeerConfigs is one of the two
missing-peer diagnostics, naming a peer genuinely absent from the map. -/
theorem convert_error_names_missing (pm : List (String × YAMLPeer)) (f : String) :
    ∀ m e, ConvertToPeerConfigs pm m f = .error e →
      ∃ missing, pm.lookup missing = none
        ∧ (e = "missing source peer config for \"" ++ missing ++ "\""
           ∨ e = "missing peer config for \"" ++ missing ++ "\"") := by
  intro m
  induction m with
  | nil => intro e h; cases h
  | cons entry rest ih =>
    obtain ⟨s, ts⟩ := entry
    intro e h
    unfold ConvertToPeerConfigs at h
    by_cases hc : (f != "" && s != f) = true
    · rw [if_pos hc] at h
      exact ih e h
    · rw [if_neg hc] at h
      cases hl : pm.lookup s with
      | none =>
        rw [hl] at h
        exact ⟨s, hl, Or.inl (by cases h; rfl)⟩
      | some sp =>
        rw [hl] at h
        dsimp only at h
        cases he : expandTargets pm sp ts with
        | error e2 =>
          rw [he] at h
          simp only [Bind.bind, Monad.toBind, Except.instMonad, Except.bind] at h
          injection h with h2
          subst h2
          obtain ⟨missing, hmiss, hmsg⟩ := expandTargets_error_names_missing pm sp ts _ he
          exact ⟨missing, hmiss, Or.inr hmsg⟩
        | ok here =>
          rw [he] at h
          cases hr : ConvertToPeerConfigs pm rest f with
          | error e3 =>
            rw [hr] at h
            simp only [Bind.bind, Monad.toBind, Except.instMonad, Except.bind] at h
            injection h with h2
            subst h2
            exact ih _ hr
          | ok there =>
            rw [hr] at h
            simp only [Bind.bind, Monad.toBind, Except.instMonad, Except.bind] at h
            cases h

/-- Helper: a successful expansion implies no selected adjacency entry
held a dangling reference. -/
theorem convert_ok_no_dangling (pm : List (String × YAMLPeer)) (f : String) :
    ∀ m l, ConvertToPeerConfigs pm m f = .ok l →
      ∀ s ts, (s, ts) ∈ m → (f = "" ∨ s = f) →
        (pm.lookup s).isSome ∧ ∀ t, t ∈ ts → (pm.lookup t).isSome := by
  intro m
  induction m with
  | nil => intro l _ s ts hm; cases hm
  | cons entry rest ih =>
    obtain ⟨s0, ts0⟩ := entry
    intro l h s ts hm hf
    unfold ConvertToPeerConfigs at h
    by_cases hc : (f != "" && s0 != f) = true
    · rw [if_pos hc] at h
      rcases List.mem_cons.mp hm with h1 | h2
      · exfalso
        cases h1
        rcases hf with h3 | h3
        · simp [h3] at hc
        · simp [h3] at hc
      · exact ih l h s ts h2 hf
    · rw [if_neg hc] at h
      cases hl : pm.lookup s0 with
      | none => rw [hl] at h; cases h
      | some sp =>
        rw [hl] at h
        dsimp only at h
        cases he : expandTargets pm sp ts0 with
        | error e2 =>
          rw [he] at h
          simp only [Bind.bind, Monad.toBind, Except.instMonad, Except.bind] at h
          cases h
        | ok here =>
          rw [he] at h
          cases hr : ConvertToPeerConfigs pm rest f with
          | error e3 =>
            rw [hr] at h
            simp only [Bind.bind, Monad.toBind, Except.instMonad, Except.bind] at h
            cases h
          | ok there =>
            rcases List.mem_cons.mp hm with h1 | h2
            · cases h1
              exact ⟨by simp [hl], expandTargets_ok_all_present pm sp ts0 here he⟩
            · exact ih there hr s ts h2 hf

/-- C9: when expansion yields zero edges the run terminates fatally with
a diagnostic naming the (defaulted) filter; when expansion itself failed,
the run terminates fatally with a diagnostic naming the missing peer
(which really is absent); and a successful expansion guarantees that no
selected adjacency entry referenced a missing peer, so a dangling
reference always falls into the fatal case. -/
theorem zero_edges_and_dangling_refs_are_fatal (pm : List (String × YAMLPeer))
    (m : List (String × List String)) (env : String) :
    (ConvertToPeerConfigs pm m (selectionFilter env) = .ok [] →
      runMain pm m env = .fatal ("no peers matched for source: " ++ selectionFilter env))
    ∧ (∀ e, ConvertToPeerConfigs pm m (selectionFilter env) = .error e →
        runMain pm m env = .fatal e
        ∧ ∃ missing, pm.lookup missing = none
            ∧ (e = "missing source peer config for \"" ++ missing ++ "\""
               ∨ e = "missing peer config for \"" ++ missing ++ "\""))
    ∧ (∀ l, ConvertToPeerConfigs pm m (selectionFilter env) = .ok l →
        ∀ s ts, (s, ts) ∈ m → s = selectionFilter env →
          (pm.lookup s).isSome ∧ ∀ t, t ∈ ts → (pm.lookup t).isSome) := by
  refine ⟨fun h => ?_,
          fun e h => ⟨?_, convert_error_names_missing pm _ m e h⟩,
          fun l h s ts hm hs => convert_ok_no_dangling pm _ m l h s ts hm (Or.inr hs)⟩
  · simp [runMain, h]
  · simp [runMain, h]

/-- Witness applying the C9 theorem: a filter matching no source is
fatal with the filter named in the message. -/
theorem zero_edges_and_dangling_refs_are_fatal_witness :
    runMain c7peers c7matrix "zz" = RunResult.fatal "no peers matched for source: zz" :=
  (zero_edges_and_dangling_refs_are_fatal c7peers c7matrix "zz").1 (by decide)

end VpcPeering
